import Mathlib

/-!
Shallow embedding of the local slashing-protection core of the validator
client (`validator/client/attest_protect.go`): the slashability detector
`isNewAttSlashable`, the history updater `markAttestationForTargetEpoch`,
and the bounded lookup `safeTargetToSource`, over a model of the persistent
per-validator attestation history (`kv.EncHistoryData`).

Go `uint64` epochs are modelled as `Nat` (real epoch values are far below
`2^63`, so the Go `int(x)` conversions used for the signed window
comparisons are exact and are modelled with `Int` arithmetic).  Byte slices
are modelled as `List Nat`; `bytes.Equal` is list equality.  A Go function
that can return an error is modelled with `Except Unit`; a Go nil pointer
of type `*kv.HistoryData` is `Option.none`; a nil-pointer dereference
(a runtime panic) is modelled by the enclosing function returning `none`.
-/

set_option autoImplicit false

namespace AttestProtect

/-- One recorded vote (`kv.HistoryData`): the source epoch and the signing
root of the attestation recorded for some target epoch.  In Go the
`SigningRoot` field is a byte slice that is nil/empty when never set. -/
structure HistoryData where
  Source : Nat
  SigningRoot : List Nat
  deriving Repr, DecidableEq

/-- Modelled from the spec: the persistent encoded history
(`kv.EncHistoryData`, whose encoding lives outside this repository slice).
Per spec §3 it is a high-water mark `latestEpochWritten` plus one entry
slot per residue modulo the weak-subjectivity period, where the slot for
epoch `E` is `E mod wsPeriod` and an absent entry (`none`) is distinct
from any present entry.  Per spec §6 every backend accessor call is
fallible; the `fail…` flags inject those backend failures so that the
error paths of the Go code can be exercised. -/
@[ext]
structure EncHistoryData where
  latestEpochWritten : Nat
  entries : Nat → Option HistoryData
  failGetLew : Bool
  failGetTarget : Bool
  failSetLew : Bool
  failSetTarget : Bool

/-- Modelled from the spec (§6): `getLatestEpochWritten`, fallible. -/
def GetLatestEpochWritten (h : EncHistoryData) : Except Unit Nat :=
  if h.failGetLew then .error () else .ok h.latestEpochWritten

/-- Modelled from the spec (§2, §3, §6): `getTargetData`.  The store is
"addressed modulo a fixed weak subjectivity period" (§2), so the accessor
reduces its argument modulo `ws`; callers in `attest_protect.go` pass both
raw epochs (line 88) and pre-reduced slot indices (line 169), which agree
because reduction is idempotent.  Fallible per §6. -/
def GetTargetData (ws : Nat) (h : EncHistoryData) (target : Nat) :
    Except Unit (Option HistoryData) :=
  if h.failGetTarget then .error () else .ok (h.entries (target % ws))

/-- Modelled from the spec (§3, §6): `setTargetData`, writing an entry (or
`none` = Absent) into the slot for `target`, fallible. -/
def SetTargetData (ws : Nat) (h : EncHistoryData) (target : Nat)
    (e : Option HistoryData) : Except Unit EncHistoryData :=
  if h.failSetTarget then .error ()
  else .ok { h with entries := fun j => if j = target % ws then e else h.entries j }

/-- Modelled from the spec (§6): `setLatestEpochWritten`, fallible. -/
def SetLatestEpochWritten (h : EncHistoryData) (e : Nat) :
    Except Unit EncHistoryData :=
  if h.failSetLew then .error () else .ok { h with latestEpochWritten := e }

/-- `bytes.Equal`: length plus contents (a nil Go slice equals the empty
slice, so `List` equality is exact). -/
def bytesEqual (a b : List Nat) : Bool := a == b

/-- The zero value of a Go `[32]byte`, sliced: 32 zero bytes.  This is what
`getDomainAndSigningRoot` returns for the root alongside an error. -/
def zeroRoot : List Nat := List.replicate 32 0

/-- Embeds `safeTargetToSource` (attest_protect.go lines 157-175): bounds
check against `latestEpochWritten` (upper bound inclusive, lower bound the
strict signed comparison `int(targetEpoch) < int(lew) - int(wsPeriod)`),
then the slot read.  Every error path returns the Go nil pointer,
modelled `none`. -/
def safeTargetToSource (ws : Nat) (h : EncHistoryData) (targetEpoch : Nat) :
    Option HistoryData :=
  match GetLatestEpochWritten h with
  | .error _ => none
  | .ok lew =>
    if targetEpoch > lew ∨ (targetEpoch : Int) < (lew : Int) - (ws : Int) then none
    else
      match GetTargetData ws h (targetEpoch % ws) with
      | .error _ => none
      | .ok hd => hd

/-- Embeds the double-vote test of attest_protect.go line 93:
`hd != (*kv.HistoryData)(nil) && !bytes.Equal(sr[:], hd.SigningRoot)`. -/
def doubleVoteHit (sr : List Nat) (hd : Option HistoryData) : Bool :=
  match hd with
  | none => false
  | some d => ! bytesEqual sr d.SigningRoot

/-- Embeds the surrounding-vote loop of attest_protect.go lines 97-108:
for `i` from `sourceEpoch` to `targetEpoch` inclusive, look up the vote
recorded with target `i`; a nil result is explicitly skipped (line 101);
a present vote whose source exceeds `sourceEpoch` flags the candidate. -/
def surroundingCheck (ws : Nat) (h : EncHistoryData)
    (sourceEpoch targetEpoch : Nat) : Bool :=
  (List.range' sourceEpoch (targetEpoch + 1 - sourceEpoch)).any fun i =>
    match safeTargetToSource ws h i with
    | none => false
    | some hb => decide (sourceEpoch < hb.Source)

/-- Embeds the surrounded-vote loop of attest_protect.go lines 110-115:
for `i` from `targetEpoch` to `lew` inclusive it evaluates
`safeTargetToSource(ctx, history, i).Source < sourceEpoch` with no nil
check, so a nil lookup result is a nil-pointer dereference: that runtime
panic is modelled by returning `none`. -/
def surroundedScan (ws : Nat) (h : EncHistoryData) (sourceEpoch : Nat) :
    List Nat → Option Bool
  | [] => some false
  | i :: rest =>
    match safeTargetToSource ws h i with
    | none => none
    | some hb =>
      if hb.Source < sourceEpoch then some true
      else surroundedScan ws h sourceEpoch rest

/-- Embeds `isNewAttSlashable` (attest_protect.go lines 70-118).  The
weak-subjectivity period `ws` stands for
`params.BeaconConfig().WeakSubjectivityPeriod`; `history` is the
per-pubkey `*kv.EncHistoryData` (nil modelled `none`); `srRes` is the
result of `v.getDomainAndSigningRoot(ctx, indexedAtt.Data)`, a call
outside this core (spec §1 excludes signing), whose Go convention returns
the zero `[32]byte` root alongside an error.  Line 75 binds that error to
`err` and line 78 overwrites it without it ever being checked, so the
body below never consults the `Except` tag beyond extracting the root.
A result of `some b` is the Go return value `b`; `none` is a runtime
panic inside the surrounded loop. -/
def isNewAttSlashable (ws : Nat) (history : Option EncHistoryData)
    (sourceEpoch targetEpoch : Nat) (srRes : Except Unit (List Nat)) :
    Option Bool :=
  match history with
  | none => some false
  | some h =>
    let sr : List Nat := match srRes with | .ok r => r | .error _ => zeroRoot
    match GetLatestEpochWritten h with
    | .error _ => some false
    | .ok lew =>
      if (targetEpoch : Int) ≤ (lew : Int) - (ws : Int) then some false
      else
        match GetTargetData ws h targetEpoch with
        | .error _ => some false
        | .ok hd =>
          if doubleVoteHit sr hd then some true
          else if surroundingCheck ws h sourceEpoch targetEpoch then some true
          else surroundedScan ws h sourceEpoch
            (List.range' targetEpoch (lew + 1 - targetEpoch))

/-- Embeds the eviction loop of attest_protect.go lines 136-142: write
Absent into the slot of each listed epoch, aborting (Go `return nil`) on
a write error. -/
def evictSlots (ws : Nat) : EncHistoryData → List Nat → Option EncHistoryData
  | h, [] => some h
  | h, i :: rest =>
    match SetTargetData ws h (i % ws) none with
    | .error _ => none
    | .ok h1 => evictSlots ws h1 rest

/-- Embeds `markAttestationForTargetEpoch` (attest_protect.go lines
122-155).  The Go loop `for i := lew+1; i < targetEpoch && i <= maxToWrite`
(with `maxToWrite = lew + wsPeriod`) visits exactly the epochs in
`List.range' (lew+1) (min targetEpoch (lew+ws+1) - (lew+1))`.  The final
write at line 149 stores `&kv.HistoryData{Source: sourceEpoch}`: the
`SigningRoot` field is left at its zero value, the nil/empty slice `[]`.
Every error path is the Go `return nil`, modelled `none`. -/
def markAttestationForTargetEpoch (ws : Nat) (history : Option EncHistoryData)
    (sourceEpoch targetEpoch : Nat) : Option EncHistoryData :=
  match history with
  | none => none
  | some h =>
    match GetLatestEpochWritten h with
    | .error _ => none
    | .ok lew =>
      match (if targetEpoch > lew then
              match evictSlots ws h
                  (List.range' (lew + 1) (min targetEpoch (lew + ws + 1) - (lew + 1))) with
              | none => none
              | some h1 =>
                match SetLatestEpochWritten h1 targetEpoch with
                | .error _ => none
                | .ok h2 => some h2
             else some h) with
      | none => none
      | some h2 =>
        match SetTargetData ws h2 (targetEpoch % ws)
            (some { Source := sourceEpoch, SigningRoot := [] }) with
        | .error _ => none
        | .ok h3 => some h3

/-- A store none of whose backend operations fail: the setting in which
the functional claims about the updater and detector are stated. -/
def noFail (h : EncHistoryData) : Bool :=
  !h.failGetLew && !h.failGetTarget && !h.failSetLew && !h.failSetTarget

/-- A store whose backend never fails, with the given high-water mark and
slot contents. -/
def mkStore (lew : Nat) (es : Nat → Option HistoryData) : EncHistoryData :=
  { latestEpochWritten := lew, entries := es,
    failGetLew := false, failGetTarget := false,
    failSetLew := false, failSetTarget := false }

/-- A 32-byte signing root of ones. -/
def root1 : List Nat := List.replicate 32 1

/-- A 32-byte signing root of twos. -/
def root2 : List Nat := List.replicate 32 2

/-- A freshly initialized history: nothing written, high-water mark 0. -/
def fresh100 : EncHistoryData := mkStore 0 fun _ => none

/-- High-water mark 5, a vote with source 1 and root `root1` recorded for
target 5, and a failing `getLatestEpochWritten` backend read. -/
def storeLewFail : EncHistoryData :=
  { mkStore 5 (fun j => if j = 5 then some { Source := 1, SigningRoot := root1 } else none)
      with failGetLew := true }

/-- The same store as `storeLewFail` but with a healthy backend. -/
def storeLewOk : EncHistoryData :=
  mkStore 5 fun j => if j = 5 then some { Source := 1, SigningRoot := root1 } else none

/-- High-water mark 1000 and every slot holding a recorded vote: prior
data everywhere, for exercising the pruned-window short-circuit. -/
def storeFull1000 : EncHistoryData :=
  mkStore 1000 fun _ => some { Source := 0, SigningRoot := root1 }

/-- High-water mark 1000, nothing recorded. -/
def store1000 : EncHistoryData := mkStore 1000 fun _ => none

/-- High-water mark 1000 with the slot `0` holding epoch 1000's entry
(source 3): the slot that epoch `900 = 1000 - 100` also maps to under
`wsPeriod = 100`. -/
def storeBoundary : EncHistoryData :=
  mkStore 1000 fun j => if j = 0 then some { Source := 3, SigningRoot := [] } else none

/-- High-water mark 0 with an entry recorded for epoch 0 in slot 0, for a
small-period (`ws = 3`) window-slide example. -/
def storeSlot0 : EncHistoryData :=
  mkStore 0 fun j => if j = 0 then some { Source := 5, SigningRoot := [] } else none

/-- High-water mark 5 with a vote `{source 2, root 0x00…00}` recorded for
target 5: its root equals the zero value that a failed signing-root
computation leaves behind. -/
def storeZeroRoot5 : EncHistoryData :=
  mkStore 5 fun j => if j = 5 then some { Source := 2, SigningRoot := zeroRoot } else none

theorem getLew_eq (h : EncHistoryData) (hf : h.failGetLew = false) :
    GetLatestEpochWritten h = .ok h.latestEpochWritten := by
  simp [GetLatestEpochWritten, hf]

theorem getTarget_eq (ws : Nat) (h : EncHistoryData) (t : Nat)
    (hf : h.failGetTarget = false) :
    GetTargetData ws h t = .ok (h.entries (t % ws)) := by
  simp [GetTargetData, hf]

theorem setLew_eq (h : EncHistoryData) (e : Nat) (hf : h.failSetLew = false) :
    SetLatestEpochWritten h e = .ok { h with latestEpochWritten := e } := by
  simp [SetLatestEpochWritten, hf]

theorem setTarget_eq (ws : Nat) (h : EncHistoryData) (t : Nat)
    (e : Option HistoryData) (hf : h.failSetTarget = false) :
    SetTargetData ws h t e =
      .ok { h with entries := fun j => if j = t % ws then e else h.entries j } := by
  simp [SetTargetData, hf]

theorem getLew_ok {h : EncHistoryData} {lew : Nat}
    (hg : GetLatestEpochWritten h = .ok lew) :
    h.failGetLew = false ∧ lew = h.latestEpochWritten := by
  unfold GetLatestEpochWritten at hg
  split at hg
  · exact absurd hg (by simp)
  · refine ⟨by simp_all, ?_⟩
    injection hg with hh
    exact hh.symm

theorem setTarget_ok {ws : Nat} {h h1 : EncHistoryData} {t : Nat}
    {e : Option HistoryData}
    (hs : SetTargetData ws h t e = .ok h1) :
    h.failSetTarget = false ∧
      h1 = { h with entries := fun j => if j = t % ws then e else h.entries j } := by
  unfold SetTargetData at hs
  split at hs
  · exact absurd hs (by simp)
  · refine ⟨by simp_all, ?_⟩
    cases hs
    rfl

theorem setLew_ok {h h1 : EncHistoryData} {e : Nat}
    (hs : SetLatestEpochWritten h e = .ok h1) :
    h.failSetLew = false ∧ h1 = { h with latestEpochWritten := e } := by
  unfold SetLatestEpochWritten at hs
  split at hs
  · exact absurd hs (by simp)
  · refine ⟨by simp_all, ?_⟩
    cases hs
    rfl

theorem evictSlots_eq (ws : Nat) (l : List Nat) :
    ∀ h : EncHistoryData, h.failSetTarget = false →
      evictSlots ws h l =
        some { h with entries := fun j =>
          if (l.any fun i => i % ws == j) then none else h.entries j } := by
  induction l with
  | nil => intro h _; rfl
  | cons i rest ih =>
    intro h hf
    simp only [evictSlots, setTarget_eq ws h (i % ws) none hf]
    rw [ih { h with entries := fun j => if j = i % ws % ws then none else h.entries j } hf]
    refine congrArg some ?_
    congr 1
    funext j
    show (if (rest.any fun i' => i' % ws == j) then none
      else if j = i % ws % ws then none else h.entries j) =
        if ((i :: rest).any fun i' => i' % ws == j) then none else h.entries j
    rw [Nat.mod_mod]
    by_cases hr : (rest.any fun i' => i' % ws == j) = true
    · simp [hr]
    · by_cases hj : j = i % ws
      · simp [hj, hr]
      · have hb : (i % ws == j) = false := by
          simp only [beq_eq_false_iff_ne, ne_eq]
          exact fun hh => hj hh.symm
        simp [hr, hj, hb]

theorem evictSlots_lew {ws : Nat} {l : List Nat} :
    ∀ {h h1 : EncHistoryData}, evictSlots ws h l = some h1 →
      h1.latestEpochWritten = h.latestEpochWritten := by
  induction l with
  | nil => intro h h1 hm; cases hm; rfl
  | cons i rest ih =>
    intro h h1 hm
    rw [evictSlots] at hm
    cases hs : SetTargetData ws h (i % ws) none with
    | error e => rw [hs] at hm; cases hm
    | ok h0 =>
      rw [hs] at hm
      rw [ih hm, (setTarget_ok hs).2]

theorem noFail_fields {h : EncHistoryData} (hn : noFail h = true) :
    h.failGetLew = false ∧ h.failGetTarget = false ∧
      h.failSetLew = false ∧ h.failSetTarget = false := by
  unfold noFail at hn
  simp only [Bool.and_eq_true, Bool.not_eq_true'] at hn
  exact ⟨hn.1.1.1, hn.1.1.2, hn.1.2, hn.2⟩

/-- The explicit result of a successful record call on a healthy store:
the high-water mark advances to `targetEpoch` exactly when it was behind
it, the slot of each epoch `i` with `lew < i < targetEpoch` and
`i ≤ lew + ws` becomes Absent, and the slot of `targetEpoch` receives
`{Source := sourceEpoch, SigningRoot := []}`. -/
theorem mark_eq (ws : Nat) (h : EncHistoryData) (s t : Nat)
    (hnf : noFail h = true) :
    markAttestationForTargetEpoch ws (some h) s t =
      some { h with
        latestEpochWritten :=
          if h.latestEpochWritten < t then t else h.latestEpochWritten,
        entries := fun j =>
          if j = t % ws then some { Source := s, SigningRoot := [] }
          else if ((List.range' (h.latestEpochWritten + 1)
              (min t (h.latestEpochWritten + ws + 1) - (h.latestEpochWritten + 1))).any
              fun i => i % ws == j) then none
          else h.entries j } := by
  obtain ⟨f1, _, f3, f4⟩ := noFail_fields hnf
  by_cases hlt : h.latestEpochWritten < t
  · simp only [markAttestationForTargetEpoch, getLew_eq, evictSlots_eq, setLew_eq,
      setTarget_eq, f1, f3, f4, gt_iff_lt, hlt, if_true]
    refine congrArg some ?_
    congr 1
    funext j
    simp only [Nat.mod_mod]
  · simp only [markAttestationForTargetEpoch, getLew_eq, setTarget_eq, f1, f4,
      gt_iff_lt, hlt, if_false]
    refine congrArg some ?_
    have hrange : min t (h.latestEpochWritten + ws + 1) - (h.latestEpochWritten + 1) = 0 := by
      omega
    congr 1
    funext j
    rw [Nat.mod_mod, hrange, List.range'_zero]
    by_cases hj : j = t % ws <;> simp [hj]

/-- Claim C4: for every history store with high-water mark `L` and
weak-subjectivity period `W`, a candidate whose target epoch satisfies
`targetEpoch <= L - W` in the signed domain (attest_protect.go line 83,
`int(targetEpoch) <= int(lew)-int(wsPeriod)`) is reported not slashable
regardless of the stored entries; because the comparison is signed, the
branch is never reached via underflow when `L < W`. -/
theorem prunedWindowNotSlashable (ws : Nat) (h : EncHistoryData) (s t : Nat)
    (srRes : Except Unit (List Nat))
    (hp : (t : Int) ≤ (h.latestEpochWritten : Int) - (ws : Int)) :
    isNewAttSlashable ws (some h) s t srRes = some false := by
  cases hf : h.failGetLew with
  | true => simp [isNewAttSlashable, GetLatestEpochWritten, hf]
  | false => simp [isNewAttSlashable, getLew_eq h hf, hp]

/-- Claim C4 witness: with `wsPeriod = 100`, `latestEpochWritten = 1000`
and every slot holding a recorded vote, a candidate with target epoch 899
is not slashable. -/
theorem prunedWindowNotSlashableWitness :
    isNewAttSlashable 100 (some storeFull1000) 2 899 (.ok root2) = some false :=
  prunedWindowNotSlashable 100 storeFull1000 2 899 (.ok root2) (by decide)

/-- Claim C1 counterexample: the same store and candidate, once with a
failing `getLatestEpochWritten` read and once with a healthy backend.
With the read failure `isNewAttSlashable` returns `some false` — the
candidate is approved by the local check, not rejected — although the
stored history proves the very same candidate is a double vote (`some
true` on the healthy store).  This refutes the claim that a failed read
makes the whole check fail. -/
theorem readFailureNotRejectedCounterexample :
    isNewAttSlashable 100 (some storeLewFail) 2 5 (.ok root2) = some false ∧
    isNewAttSlashable 100 (some storeLewOk) 2 5 (.ok root2) = some true :=
  ⟨by decide, by decide⟩

/-- Claim C1 (amended): a failed backend read during the pre-sign check is
logged and converted into `false` (not slashable), approving the
candidate: a failing `getLatestEpochWritten` (line 78-82) or, when the
pruning branch is not taken, a failing target-epoch read (line 88-92)
each make `isNewAttSlashable` return `some false`. -/
theorem readFailureApprovesCandidate (ws : Nat) (h : EncHistoryData) (s t : Nat)
    (srRes : Except Unit (List Nat)) :
    (h.failGetLew = true → isNewAttSlashable ws (some h) s t srRes = some false) ∧
    (h.failGetLew = false →
      ¬ ((t : Int) ≤ (h.latestEpochWritten : Int) - (ws : Int)) →
      h.failGetTarget = true →
      isNewAttSlashable ws (some h) s t srRes = some false) := by
  constructor
  · intro hf
    simp [isNewAttSlashable, GetLatestEpochWritten, hf]
  · intro hf hp hft
    simp [isNewAttSlashable, getLew_eq h hf, hp, GetTargetData, hft]

/-- Claim C1 witness: the amended statement applied to the concrete store
whose `getLatestEpochWritten` read fails. -/
theorem readFailureApprovesCandidateWitness :
    isNewAttSlashable 100 (some storeLewFail) 2 5 (.ok root1) = some false :=
  (readFailureApprovesCandidate 100 storeLewFail 2 5 (.ok root1)).1 rfl

/-- Claim C8 counterexample: with `wsPeriod = 100` and
`latestEpochWritten = 1000`, the boundary epoch `900 = 1000 - 100` is NOT
reported Absent: `safeTargetToSource` uses the strict bound
`int(targetEpoch) < int(lew)-int(wsPeriod)` (line 166), so it reads slot
`900 mod 100 = 0` — which holds epoch 1000's entry — and returns it. -/
theorem boundaryEpochReadNotAbsent :
    safeTargetToSource 100 storeBoundary 900 = some { Source := 3, SigningRoot := [] } := by
  decide

/-- Claim C8 (amended): the bounded by-epoch read `safeTargetToSource`
returns Absent whenever the queried epoch `E` is strictly outside the
range, i.e. whenever `E > latestEpochWritten` or `E < latestEpochWritten
- wsPeriod` in the signed domain; the boundary epoch
`E = latestEpochWritten - wsPeriod` is treated as in-window and its slot
content is returned. -/
theorem boundedLookupAbsentOutsideWindow (ws : Nat) (h : EncHistoryData) (e : Nat)
    (hout : h.latestEpochWritten < e ∨
      (e : Int) < (h.latestEpochWritten : Int) - (ws : Int)) :
    safeTargetToSource ws h e = none := by
  cases hf : h.failGetLew with
  | true => simp [safeTargetToSource, GetLatestEpochWritten, hf]
  | false =>
    simp only [safeTargetToSource, getLew_eq h hf]
    rw [if_pos hout]

/-- Claim C8 witness: the amended statement applied at an epoch above the
high-water mark. -/
theorem boundedLookupAbsentOutsideWindowWitness :
    safeTargetToSource 100 storeBoundary 1001 = none :=
  boundedLookupAbsentOutsideWindow 100 storeBoundary 1001 (Or.inl (by decide))

/-- Claim C10: the error of the candidate's signing-root computation
(line 75) is overwritten by the store read on line 78 before ever being
checked, so `isNewAttSlashable` behaves on a failed computation exactly
as on a successful one that produced the zero root; concretely, with a
recorded vote whose root is the 32 zero bytes, a candidate whose root
computation failed is compared using the zero root and approved
(`some false`) instead of the check failing. -/
theorem signingRootErrorIgnored :
    (∀ (ws : Nat) (h : Option EncHistoryData) (s t : Nat),
      isNewAttSlashable ws h s t (.error ()) = isNewAttSlashable ws h s t (.ok zeroRoot)) ∧
    isNewAttSlashable 100 (some storeZeroRoot5) 2 5 (.error ()) = some false := by
  constructor
  · intro ws h s t
    cases h with
    | none => rfl
    | some h => rfl
  · decide

/-- Claim C2: recording a vote stores `&kv.HistoryData{Source:
sourceEpoch}` (line 149) — the signing root is dropped — so a later
candidate for the same target epoch with the SAME root as the recorded
attestation is nevertheless flagged slashable: the stored root is the
empty slice, which never equals the candidate's 32-byte root.  This
evaluates the code at the failing input (record source 2, target 5 on a
fresh store, then re-check the identical candidate). -/
theorem sameRootFlaggedAfterRecord :
    isNewAttSlashable 100 (markAttestationForTargetEpoch 100 (some fresh100) 2 5) 2 5
      (.ok root1) = some true := by
  decide

/-- Claim C5: the surrounded loop (lines 111-115) evaluates
`safeTargetToSource(ctx, history, i).Source` with no nil check, unlike
the surrounding loop (line 101), so an Absent epoch inside
`[targetEpoch, latestEpochWritten]` is a nil-pointer dereference — a
runtime panic, modelled `none` — rather than being skipped.  The spec's
own surrounded example (recorded vote source 1 target 6, candidate
source 2 target 5) hits it: after recording (1,6) on a fresh store,
epoch 5 is Absent and the check panics instead of flagging the
candidate. -/
theorem surroundedCheckPanicsOnAbsent :
    isNewAttSlashable 100 (markAttestationForTargetEpoch 100 (some fresh100) 1 6) 2 5
      (.ok root1) = none := by
  decide

/-- Claim C6: the surrounding check returns true exactly when some epoch
`i` in `[sourceEpoch, targetEpoch]` has a present, in-window recorded
vote (a non-nil `safeTargetToSource` result) whose source exceeds the
candidate's source; and the spec's concrete instance: after recording
(source 2, target 5) on a fresh store, the candidate (source 1, target 6)
is flagged slashable. -/
theorem surroundingCheckCharacterization :
    (∀ (ws : Nat) (h : EncHistoryData) (s t : Nat),
      surroundingCheck ws h s t = true ↔
        ∃ i, s ≤ i ∧ i ≤ t ∧
          ∃ hb, safeTargetToSource ws h i = some hb ∧ s < hb.Source) ∧
    isNewAttSlashable 100 (markAttestationForTargetEpoch 100 (some fresh100) 2 5) 1 6
      (.ok root1) = some true := by
  constructor
  · intro ws h s t
    simp only [surroundingCheck, List.any_eq_true]
    constructor
    · rintro ⟨i, hmem, hp⟩
      rw [List.mem_range'_1] at hmem
      refine ⟨i, hmem.1, by omega, ?_⟩
      revert hp
      cases hc : safeTargetToSource ws h i with
      | none => intro hp; cases hp
      | some hb => intro hp; exact ⟨hb, rfl, of_decide_eq_true hp⟩
    · rintro ⟨i, hsi, hit, hb, hc, hlt⟩
      refine ⟨i, ?_, ?_⟩
      · rw [List.mem_range'_1]; omega
      · rw [hc]
        exact decide_eq_true hlt
  · decide

/-- Claim C6 witness: the characterization applied to the store holding
vote (source 1, target 5): the surrounding check fires for a candidate
with source 0 spanning epoch 5. -/
theorem surroundingCheckCharacterizationWitness :
    surroundingCheck 100 storeLewOk 0 6 = true :=
  (surroundingCheckCharacterization.1 100 storeLewOk 0 6).mpr
    ⟨5, by decide, by decide, { Source := 1, SigningRoot := root1 }, by decide, by decide⟩

/-- Claim C9: a successful record call never lowers the high-water mark:
if `targetEpoch > latestEpochWritten` the mark is set to `targetEpoch`
(line 143), otherwise it is left unchanged. -/
theorem latestEpochWrittenMonotone (ws : Nat) (h h' : EncHistoryData) (s t : Nat)
    (hm : markAttestationForTargetEpoch ws (some h) s t = some h') :
    h.latestEpochWritten ≤ h'.latestEpochWritten := by
  cases hg : GetLatestEpochWritten h with
  | error e =>
    simp only [markAttestationForTargetEpoch, hg] at hm
    exact Option.noConfusion hm
  | ok lew =>
    obtain ⟨hfl, hlew⟩ := getLew_ok hg
    simp only [markAttestationForTargetEpoch, hg] at hm
    by_cases hlt : t > lew
    · rw [if_pos hlt] at hm
      cases he : evictSlots ws h (List.range' (lew + 1) (min t (lew + ws + 1) - (lew + 1))) with
      | none =>
        simp only [he] at hm
        exact Option.noConfusion hm
      | some h1 =>
        simp only [he] at hm
        cases hsl : SetLatestEpochWritten h1 t with
        | error e =>
          simp only [hsl] at hm
          exact Option.noConfusion hm
        | ok h2 =>
          simp only [hsl] at hm
          cases hst : SetTargetData ws h2 (t % ws) (some { Source := s, SigningRoot := [] }) with
          | error e =>
            simp only [hst] at hm
            exact Option.noConfusion hm
          | ok h3 =>
            simp only [hst, Option.some.injEq] at hm
            subst hm
            rw [(setTarget_ok hst).2, (setLew_ok hsl).2]
            show h.latestEpochWritten ≤ t
            omega
    · rw [if_neg hlt] at hm
      simp only [] at hm
      cases hst : SetTargetData ws h (t % ws) (some { Source := s, SigningRoot := [] }) with
      | error e =>
        simp only [hst] at hm
        exact Option.noConfusion hm
      | ok h3 =>
        simp only [hst, Option.some.injEq] at hm
        subst hm
        rw [(setTarget_ok hst).2]

/-- Claim C9 witness: the monotonicity theorem applied to a concrete
record call that slides the window from 0 to 10. -/
theorem latestEpochWrittenMonotoneWitness :
    storeSlot0.latestEpochWritten ≤
      ((markAttestationForTargetEpoch 3 (some storeSlot0) 7 10).getD
        storeSlot0).latestEpochWritten :=
  latestEpochWrittenMonotone 3 storeSlot0 _ 7 10 rfl

/-- Claim C3 counterexample: with `wsPeriod = 100` and
`latestEpochWritten = 1000`, the candidate (source 2, target 899) lies in
the pruned window: `isNewAttSlashable` is false before recording,
recording succeeds, and `isNewAttSlashable` for the very same candidate
is STILL false afterwards — the pruning short-circuit (line 83) fires
before the double-vote check can see the recorded entry.  This refutes
the unrestricted record-then-redetect claim. -/
theorem recordRedetectFailsInPrunedWindow :
    isNewAttSlashable 100 (some store1000) 2 899 (.ok root1) = some false ∧
    (markAttestationForTargetEpoch 100 (some store1000) 2 899).isSome = true ∧
    isNewAttSlashable 100 (markAttestationForTargetEpoch 100 (some store1000) 2 899) 2 899
      (.ok root1) = some false :=
  ⟨by decide, by decide, by decide⟩

/-- Claim C3 (amended): for candidates whose target epoch is NOT in the
pruned window of the pre-record store, with a positive
weak-subjectivity period, a healthy backend and a (necessarily 32-byte,
hence nonempty) candidate signing root, recording the candidate makes
re-running `isNewAttSlashable` on the same candidate return true.  (On
this code the re-detection fires through the double-vote comparison
against the recorded entry's empty signing root.) -/
theorem recordRedetectInsideWindow (ws : Nat) (h h' : EncHistoryData) (s t : Nat)
    (sr : List Nat) (hws : 0 < ws) (hnf : noFail h = true) (hsr : sr ≠ [])
    (hpre : isNewAttSlashable ws (some h) s t (.ok sr) = some false)
    (hwin : ¬ ((t : Int) ≤ (h.latestEpochWritten : Int) - (ws : Int)))
    (hm : markAttestationForTargetEpoch ws (some h) s t = some h') :
    isNewAttSlashable ws (some h') s t (.ok sr) = some true := by
  obtain ⟨f1, f2, f3, f4⟩ := noFail_fields hnf
  rw [mark_eq ws h s t hnf] at hm
  injection hm with hm
  subst hm
  have hsrb : (sr == ([] : List Nat)) = false := by
    cases sr with
    | nil => exact absurd rfl hsr
    | cons a l => rfl
  have hprune : ¬ ((t : Int) ≤
      (((if h.latestEpochWritten < t then t else h.latestEpochWritten) : Nat) : Int) -
        (ws : Int)) := by
    by_cases hlt : h.latestEpochWritten < t
    · rw [if_pos hlt]; omega
    · rw [if_neg hlt]; exact hwin
  simp [isNewAttSlashable, getLew_eq, getTarget_eq, f1, f2, hprune, doubleVoteHit,
    bytesEqual, hsrb]
  by_cases hlt : h.latestEpochWritten < t
  · rw [if_pos hlt]
    omega
  · rw [if_neg hlt]
    omega

/-- Claim C3 witness: the amended record-then-redetect statement applied
to a fresh store and the candidate (source 2, target 5, root of ones). -/
theorem recordRedetectInsideWindowWitness :
    isNewAttSlashable 100
      (some ((markAttestationForTargetEpoch 100 (some fresh100) 2 5).getD fresh100)) 2 5
      (.ok root1) = some true :=
  recordRedetectInsideWindow 100 fresh100
    ((markAttestationForTargetEpoch 100 (some fresh100) 2 5).getD fresh100) 2 5 root1
    (by decide) (by decide) (by decide) (by decide) (by decide) rfl

/-- The epochs whose slots the eviction loop of
`markAttestationForTargetEpoch` visits (for `lew < t`): exactly the `i`
with `lew < i < t` and `i ≤ lew + ws` — including `i = lew + ws` itself,
since the Go loop bound is `i <= maxToWrite`. -/
theorem evictAny_iff (ws L t j : Nat) :
    ((List.range' (L + 1) (min t (L + ws + 1) - (L + 1))).any fun i => i % ws == j) = true ↔
      ∃ i, L < i ∧ i < t ∧ i ≤ L + ws ∧ i % ws = j := by
  rw [List.any_eq_true]
  constructor
  · rintro ⟨i, hmem, hb⟩
    rw [List.mem_range'_1] at hmem
    exact ⟨i, by omega, by omega, by omega, beq_iff_eq.mp hb⟩
  · rintro ⟨i, h1, h2, h3, h4⟩
    refine ⟨i, ?_, beq_iff_eq.mpr h4⟩
    rw [List.mem_range'_1]
    omega

/-- Claim C7 counterexample: with `wsPeriod = 3`, `latestEpochWritten =
0`, a present entry in slot 0 (epoch 0's vote) and a record call for
target 10, the claimed eviction range — epochs strictly between `L = 0`
and `min(T, L + W) = 3`, i.e. slots 1 and 2 — excludes slot 0, and `0 ≠
10 mod 3`, so under the claim slot 0 keeps its entry.  The code's loop
bound is `i <= L + W` (line 136), which also visits epoch `3 = L + W`
and so overwrites slot `3 mod 3 = 0` with Absent. -/
theorem windowSlideEvictsBoundarySlot :
    (markAttestationForTargetEpoch 3 (some storeSlot0) 7 10).map (fun h => h.entries 0) =
      some none := by
  decide

/-- Claim C7 (amended): for a healthy store, positive `wsPeriod` and a
record call with `targetEpoch > latestEpochWritten`, the record call
succeeds and in the resulting store: `latestEpochWritten = targetEpoch`;
the slot of `targetEpoch` holds `{Source := sourceEpoch, SigningRoot :=
[]}`; every other slot reachable as `i mod wsPeriod` for some epoch `i`
with `latestEpochWritten < i < targetEpoch` and `i ≤ latestEpochWritten
+ wsPeriod` (the bound is `min(targetEpoch, latestEpochWritten +
wsPeriod + 1)`, one more than the claim's `min(targetEpoch,
latestEpochWritten + wsPeriod)`) is Absent; and every remaining slot is
unchanged. -/
theorem windowSlideCharacterization (ws : Nat) (h : EncHistoryData) (s t : Nat)
    (hnf : noFail h = true) (hlt : h.latestEpochWritten < t) :
    ∃ h', markAttestationForTargetEpoch ws (some h) s t = some h' ∧
      h'.latestEpochWritten = t ∧
      ∀ j, (j = t % ws → h'.entries j = some { Source := s, SigningRoot := [] }) ∧
        (j ≠ t % ws →
          (∃ i, h.latestEpochWritten < i ∧ i < t ∧ i ≤ h.latestEpochWritten + ws ∧
            i % ws = j) →
          h'.entries j = none) ∧
        (j ≠ t % ws →
          (∀ i, h.latestEpochWritten < i → i < t → i ≤ h.latestEpochWritten + ws →
            i % ws ≠ j) →
          h'.entries j = h.entries j) := by
  refine ⟨_, mark_eq ws h s t hnf, ?_, ?_⟩
  · show (if h.latestEpochWritten < t then t else h.latestEpochWritten) = t
    rw [if_pos hlt]
  · intro j
    refine ⟨fun hj => ?_, fun hj hex => ?_, fun hj hall => ?_⟩
    · dsimp only
      rw [if_pos hj]
    · dsimp only
      rw [if_neg hj, if_pos ((evictAny_iff ws h.latestEpochWritten t j).mpr hex)]
    · have hnc : ¬ (((List.range' (h.latestEpochWritten + 1)
          (min t (h.latestEpochWritten + ws + 1) - (h.latestEpochWritten + 1))).any
          fun i => i % ws == j) = true) := by
        intro hc
        obtain ⟨i, hi1, hi2, hi3, hi4⟩ := (evictAny_iff ws h.latestEpochWritten t j).mp hc
        exact hall i hi1 hi2 hi3 hi4
      dsimp only
      rw [if_neg hj, if_neg hnc]

/-- Claim C7 witness: the window-slide characterization applied to
recording target 1050 on a store with `latestEpochWritten = 1000` and
`wsPeriod = 100`: the mark becomes 1050 and the evicted slots are
Absent. -/
theorem windowSlideCharacterizationWitness :
    ∃ h', markAttestationForTargetEpoch 100 (some store1000) 3 1050 = some h' ∧
      h'.latestEpochWritten = 1050 ∧
      ∀ j, (j = 1050 % 100 → h'.entries j = some { Source := 3, SigningRoot := [] }) ∧
        (j ≠ 1050 % 100 →
          (∃ i, 1000 < i ∧ i < 1050 ∧ i ≤ 1000 + 100 ∧ i % 100 = j) →
          h'.entries j = none) ∧
        (j ≠ 1050 % 100 →
          (∀ i, 1000 < i → i < 1050 → i ≤ 1000 + 100 → i % 100 ≠ j) →
          h'.entries j = store1000.entries j) :=
  windowSlideCharacterization 100 store1000 3 1050 (by decide) (by decide)
